import Mathlib

/-!
Verification development for the Financial-Instrument-Viewer repository
(`upstox_financial_instruments_viewer.py`).

The source is a single Python/pandas/Streamlit script.  The embedding below
translates its core logic into executable Lean definitions:

* machine floats are modelled exactly by `Dec`, a decimal fixed-point
  representation `num / 10^exp`; the claims exercised here depend only on
  orderings, equalities and decimal renderings that agree between binary64
  and exact decimals on the inputs involved;
* a pandas DataFrame cell is `Option Value`: `none` models a missing key
  (pandas `NaN`), `some Value.null` models an explicit JSON `null`
  (Python `None` kept in an object column);
* `json.loads` (Python standard library) is modelled as an explicit parameter
  `jl : String → Option Json`; the control flow of `load_json_file` itself is
  translated from the source;
* `datetime.fromtimestamp(...).strftime(...)` (local-time calendar conversion,
  an OS/libc service) is modelled as a parameter `render : Dec → Option String`;
  `renderUTC` below instantiates it with the local zone taken to be UTC,
  `none` modelling the out-of-range errors `fromtimestamp` raises;
* `Series.str.contains` interprets the search term as a regular expression;
  it is modelled for literal terms (no regex metacharacters) as
  case-insensitive substring containment, which is what the claims exercise;
* Python `str()` of a float is modelled by `floatStr`, exact for decimals
  terminating within 17 digits (the only ones exercised); `float(...)`
  string parsing is modelled by `parseFloat` for finite decimal and
  scientific literals (`inf`/`nan`/underscores are outside the model);
* the claims exercise string-valued categorical fields stored in object-dtype
  columns; pandas' numeric-dtype column promotion is outside the model.
-/

/-- Exact decimal number `num / 10^exp`, the model of the Python floats the
program manipulates.  The representation is not forced to be reduced;
numeric equality is `Dec.deq`, while structural equality is only used to
compare records that were never rebuilt. -/
structure Dec where
  num : ℤ
  exp : ℕ
deriving DecidableEq

/-- Integer power of ten, by structural recursion so the kernel evaluates it. -/
def tenPow : ℕ → ℤ
  | 0 => 1
  | n + 1 => 10 * tenPow n

/-- The decimal denoting an integer. -/
def Dec.ofInt (n : ℤ) : Dec := ⟨n, 0⟩

/-- Numeric equality of decimals (cross-multiplied). -/
def Dec.deq (a b : Dec) : Bool := a.num * tenPow b.exp = b.num * tenPow a.exp

/-- Numeric order on decimals (cross-multiplied). -/
def Dec.dle (a b : Dec) : Bool := a.num * tenPow b.exp ≤ b.num * tenPow a.exp

/-- Strict numeric order on decimals. -/
def Dec.dlt (a b : Dec) : Bool := a.num * tenPow b.exp < b.num * tenPow a.exp

/-- Floor of a decimal. -/
def Dec.floor (a : Dec) : ℤ := a.num.fdiv (tenPow a.exp)

/-- Truncation toward zero, the model of Python `int(...)` on a float. -/
def Dec.trunc (a : Dec) : ℤ :=
  if 0 ≤ a.num then a.num.fdiv (tenPow a.exp) else -((-a.num).fdiv (tenPow a.exp))

/-- Scale by 100 (exact). -/
def Dec.mul100 (a : Dec) : Dec := ⟨a.num * 100, a.exp⟩

/-- Divide by 1000 (exact). -/
def Dec.div1000 (a : Dec) : Dec := ⟨a.num, a.exp + 3⟩

/-- Negative test. -/
def Dec.isNeg (a : Dec) : Bool := a.num < 0

/-- The rational a decimal denotes; used only in proofs, never evaluated. -/
def Dec.toRat (a : Dec) : ℚ := (a.num : ℚ) / (10 : ℚ) ^ a.exp

/-- Character for the decimal digit `n` (0–9). -/
def digitChar (n : ℕ) : Char := Char.ofNat (48 + n)

/-- Whitespace test used by the Python `str.strip` model. -/
def isWs (c : Char) : Bool := c.isWhitespace

/-- Model of Python `str.strip()` on a character list. -/
def trimChars (l : List Char) : List Char :=
  ((l.dropWhile isWs).reverse.dropWhile isWs).reverse

/-- Model of Python `str.strip()`. -/
def trimStr (s : String) : String := String.mk (trimChars s.data)

/-- Auxiliary splitter: accumulates the current chunk (reversed) in `acc`. -/
def splitCharAux (c : Char) : List Char → List Char → List (List Char)
  | [], acc => [acc.reverse]
  | x :: xs, acc =>
    if x = c then acc.reverse :: splitCharAux c xs []
    else splitCharAux c xs (x :: acc)

/-- Model of Python `str.split(c)` (keeps empty chunks). -/
def splitOnChar (c : Char) (l : List Char) : List (List Char) := splitCharAux c l []

/-- Does `pre` occur at the head of `s`? -/
def charsStart : List Char → List Char → Bool
  | [], _ => true
  | _ :: _, [] => false
  | a :: as, b :: bs => a == b && charsStart as bs

/-- Does `pat` occur contiguously somewhere in `s`? -/
def charsContain : List Char → List Char → Bool
  | [], pat => pat.isEmpty
  | a :: t, pat => charsStart pat (a :: t) || charsContain t pat

/-- Case-insensitive substring containment: model of
`str.contains(pat, case=False)` for literal (regex-metacharacter-free)
patterns. -/
def strContainsCI (s pat : String) : Bool :=
  charsContain (s.data.map Char.toLower) (pat.data.map Char.toLower)

/-- Decimal digits of `n`, most significant first (fuel-driven so that the
kernel can evaluate it). -/
def natToChars : ℕ → ℕ → List Char
  | 0, _ => []
  | f + 1, n => if n < 10 then [digitChar n] else natToChars f (n / 10) ++ [digitChar (n % 10)]

/-- Model of Python `str(n)` for a natural number. -/
def natStr (n : ℕ) : String := String.mk (natToChars 40 n)

/-- Model of Python `str(n)` for an integer. -/
def intStr (n : ℤ) : String := if n < 0 then "-" ++ natStr (-n).toNat else natStr n.toNat

/-- Zero-pad a number to two characters (for `%m %d %H %M %S`). -/
def pad2 (n : ℤ) : String := if n < 10 then "0" ++ intStr n else intStr n

/-- Zero-pad a year to four characters (for `%Y`). -/
def pad4 (n : ℤ) : String :=
  String.mk (List.replicate (4 - (natToChars 40 n.toNat).length) '0' ++ natToChars 40 n.toNat)

/-- Insert a comma after every three characters, input and output reversed
(auxiliary for the thousands separators of `f-string` `,` formatting). -/
def group3 : List Char → List Char
  | a :: b :: c :: d :: rest => a :: b :: c :: ',' :: group3 (d :: rest)
  | l => l

/-- Render `n` with thousands separators, as Python `f"{n:,}"` does. -/
def commifyNat (n : ℕ) : String := String.mk ((group3 (natToChars 40 n).reverse).reverse)

/-- Round-half-to-even of a decimal to an integer: model of the rounding used
by Python fixed-point float formatting. -/
def halfEvenRound (x : Dec) : ℤ :=
  let p := tenPow x.exp
  let f := x.num.fdiv p
  let r := x.num - f * p
  if 2 * r < p then f
  else if p < 2 * r then f + 1
  else if f.emod 2 = 0 then f else f + 1

/-- Numeric value of a digit string (most significant first). -/
def digitsToNat (l : List Char) : ℕ := l.foldl (fun a c => a * 10 + (c.toNat - 48)) 0

/-- All characters are decimal digits and there is at least one. -/
def allDigits (l : List Char) : Bool := !l.isEmpty && l.all Char.isDigit

/-- Strip one optional leading sign, returning the sign as an integer. -/
def stripSign : List Char → ℤ × List Char
  | '-' :: t => (-1, t)
  | '+' :: t => (1, t)
  | t => (1, t)

/-- Parse the mantissa of a float literal: digits with at most one dot,
at least one digit overall. -/
def parseMantissa (l : List Char) : Option Dec :=
  match splitOnChar '.' l with
  | [ip] => if allDigits ip then some ⟨(digitsToNat ip : ℤ), 0⟩ else none
  | [ip, fp] =>
    if ip.all Char.isDigit && fp.all Char.isDigit && (!ip.isEmpty || !fp.isEmpty) then
      some ⟨(digitsToNat ip : ℤ) * tenPow fp.length + (digitsToNat fp : ℤ), fp.length⟩
    else none
  | _ => none

/-- Parse a signed decimal exponent. -/
def parseExp : List Char → Option ℤ
  | '-' :: t => if allDigits t then some (-(digitsToNat t : ℤ)) else none
  | '+' :: t => if allDigits t then some ((digitsToNat t : ℤ)) else none
  | t => if allDigits t then some ((digitsToNat t : ℤ)) else none

/-- Scale a decimal by a signed power of ten. -/
def applyExp (q : Dec) (e : ℤ) : Dec :=
  if 0 ≤ e then ⟨q.num * tenPow e.toNat, q.exp⟩ else ⟨q.num, q.exp + (-e).toNat⟩

/-- Model of Python `float(s)` for finite decimal and scientific literals:
surrounding whitespace is stripped, an optional sign, digits with at most one
dot, and an optional `e`/`E` exponent.  (`inf`, `nan` and digit underscores
are outside the model.) -/
def parseFloat (s : String) : Option Dec :=
  match stripSign (trimChars s.data) with
  | (sgn, body) =>
    match splitOnChar 'e' (body.map Char.toLower) with
    | [m] => (parseMantissa m).map (fun q => ⟨sgn * q.num, q.exp⟩)
    | [m, ex] =>
      match parseMantissa m, parseExp ex with
      | some q, some e => some ⟨sgn * (applyExp q e).num, (applyExp q e).exp⟩
      | _, _ => none
    | _ => none

/-- Values a JSON-derived DataFrame cell can hold.  `intV` and `floatV`
mirror Python's distinct `int` and `float` (a JSON `50` parses as `int`,
`50.0` as `float`); floats are modelled as exact decimals. -/
inductive Value
  | null
  | str (s : String)
  | intV (n : ℤ)
  | floatV (q : Dec)
  | boolV (b : Bool)
deriving DecidableEq

/-- Fractional decimal digits of the fraction `r / 10^exp` with
`0 ≤ r < 10^exp`, fuel-driven, stopping at zero remainder (auxiliary for
`floatStr`). -/
def fracChars : ℕ → ℤ → ℕ → List Char
  | 0, _, _ => []
  | f + 1, r, e =>
    if r = 0 then []
    else
      digitChar ((r * 10).fdiv (tenPow e)).toNat ::
        fracChars f (r * 10 - ((r * 10).fdiv (tenPow e)) * tenPow e) e

/-- Model of Python `str()` of a float, exact for decimals terminating
within 17 digits (all that the claims exercise). -/
def floatStr (q : Dec) : String :=
  let p := tenPow q.exp
  let a := q.num.natAbs
  let ip := (a : ℤ).fdiv p
  let r := (a : ℤ) - ip * p
  (if q.num < 0 then "-" else "") ++ natStr ip.toNat ++ "." ++
    (if (fracChars 17 r q.exp).isEmpty then "0" else String.mk (fracChars 17 r q.exp))

/-- Model of Python `str(v)` / pandas `astype(str)` on one non-missing cell
value. -/
def pyStr : Value → String
  | Value.null => "None"
  | Value.str s => s
  | Value.intV n => intStr n
  | Value.floatV q => floatStr q
  | Value.boolV b => if b then "True" else "False"

/-- Model of pandas `astype(str)` on a cell: a missing cell is `NaN`, whose
string representation is `"nan"`; an explicit `None` renders as `"None"`. -/
def pyStrCell : Option Value → String
  | none => "nan"
  | some v => pyStr v

/-- Model of `pd.isna` on a cell: true for a missing cell (`NaN`) and for an
explicit `None`. -/
def isnaCell : Option Value → Bool
  | none => true
  | some Value.null => true
  | some _ => false

/-- Python `value == ''` on a cell. -/
def isEmptyStrCell : Option Value → Bool
  | some (Value.str s) => s = ""
  | _ => false

/-- Python `value == 0` on a cell: integer and float zero and `False` are all
equal to `0`; strings are not. -/
def pyEqZeroCell : Option Value → Bool
  | some (Value.intV n) => n = 0
  | some (Value.floatV q) => q.deq (Dec.ofInt 0)
  | some (Value.boolV b) => b = false
  | _ => false

/-- Python `value == b` for a boolean `b` on a cell (pandas elementwise `==`):
a genuine boolean compares by identity of truth value, and numbers compare
numerically (`1 == True`, `0 == False`); everything else is unequal. -/
def pyEqB (c : Option Value) (b : Bool) : Bool :=
  match c with
  | some (Value.boolV x) => x == b
  | some (Value.intV n) => n == (if b then 1 else 0)
  | some (Value.floatV q) => q.deq (Dec.ofInt (if b then 1 else 0))
  | _ => false

/-- Model of `pd.to_numeric(value, errors='coerce')` on one cell: `NaN`/`None`
coerce to `NaN` (`none`), numbers pass through, booleans coerce to 1/0, and
strings are parsed as float literals. -/
def toNumericCell : Option Value → Option Dec
  | none => none
  | some Value.null => none
  | some (Value.intV n) => some (Dec.ofInt n)
  | some (Value.floatV q) => some q
  | some (Value.boolV b) => some (Dec.ofInt (if b then 1 else 0))
  | some (Value.str s) => parseFloat s

/-- Rendering of `f"₹{value:,.2f}"`: sign, thousands separators, exactly two
decimals, round-half-even. -/
def currencyFmt (q : Dec) : String :=
  let c := halfEvenRound q.mul100
  "₹" ++ (if c < 0 ∨ (c = 0 ∧ q.isNeg) then "-" else "")
    ++ commifyNat (c.natAbs / 100) ++ "." ++ pad2 ((c.natAbs % 100 : ℕ) : ℤ)

/-- Translation of `format_currency` (source lines 59–69): `pd.isna`, `== ''`
and `== 0` inputs short-circuit to the zero rendering `"₹0.00"`; strings are
then converted with `float(...)`, whose failure is caught by the bare
`except` returning `"N/A"`; everything else is rendered by the f-string. -/
def format_currency : Option Value → String
  | none => "₹0.00"
  | some Value.null => "₹0.00"
  | some (Value.str s) =>
    if s = "" then "₹0.00"
    else
      match parseFloat s with
      | none => "N/A"
      | some q => currencyFmt q
  | some (Value.intV n) => if n = 0 then "₹0.00" else currencyFmt (Dec.ofInt n)
  | some (Value.floatV q) => if q.deq (Dec.ofInt 0) then "₹0.00" else currencyFmt q
  | some (Value.boolV b) => if b = false then "₹0.00" else currencyFmt (Dec.ofInt 1)

/-- Civil date from a count of days since 1970-01-01 (standard
era-of-400-years algorithm), returned as (year, month, day). -/
def civilFromDays (z0 : ℤ) : ℤ × ℤ × ℤ :=
  let z := z0 + 719468
  let era := z.fdiv 146097
  let doe := z - era * 146097
  let yoe := (doe - doe.fdiv 1460 + doe.fdiv 36524 - doe.fdiv 146096).fdiv 365
  let y := yoe + era * 400
  let doy := doe - (365 * yoe + yoe.fdiv 4 - yoe.fdiv 100)
  let mp := (5 * doy + 2).fdiv 153
  let d := doy - (153 * mp + 2).fdiv 5 + 1
  let m := mp + (if mp < 10 then 3 else -9)
  (y + (if m ≤ 2 then 1 else 0), m, d)

/-- Model of `datetime.fromtimestamp(t).strftime("%Y-%m-%d %H:%M:%S")` with
the process's local zone instantiated to UTC; `none` models the exceptions
`fromtimestamp` raises outside the supported calendar range (years 1–9999). -/
def renderUTC (q : Dec) : Option String :=
  let t := q.floor
  let days := t.fdiv 86400
  let sod := t - 86400 * days
  match civilFromDays days with
  | (y, m, d) =>
    if 1 ≤ y ∧ y ≤ 9999 then
      some (pad4 y ++ "-" ++ pad2 m ++ "-" ++ pad2 d ++ " " ++ pad2 (sod.fdiv 3600) ++ ":"
        ++ pad2 ((sod.emod 3600).fdiv 60) ++ ":" ++ pad2 (sod.emod 60))
    else none

/-- Translation of `convert_timestamp` (source lines 44–56): `pd.isna`,
`== ''` and `== 0` inputs yield `"N/A"`; strings are converted with
`float(...)`; the value is divided by 1000 and rendered by
`fromtimestamp`/`strftime` (the `render` parameter); any exception — a
non-numeric string or an out-of-range instant — is caught by the bare
`except` returning `"Invalid"`. -/
def convert_timestamp (render : Dec → Option String) : Option Value → String
  | none => "N/A"
  | some Value.null => "N/A"
  | some (Value.str s) =>
    if s = "" then "N/A"
    else
      match parseFloat s with
      | none => "Invalid"
      | some q => (render q.div1000).getD "Invalid"
  | some (Value.intV n) => if n = 0 then "N/A" else (render (Dec.ofInt n).div1000).getD "Invalid"
  | some (Value.floatV q) =>
    if q.deq (Dec.ofInt 0) then "N/A" else (render q.div1000).getD "Invalid"
  | some (Value.boolV b) => if b = false then "N/A" else (render (Dec.ofInt 1).div1000).getD "Invalid"

/-- JSON values, as produced by Python `json.loads`. -/
inductive Json
  | null
  | boolJ (b : Bool)
  | numJ (q : Dec)
  | strJ (s : String)
  | arr (elems : List Json)
  | obj (fields : List (String × Json))

/-- The lines the JSONL fallback iterates over: the decoded content is
stripped, split on newlines, and blank lines are skipped (source lines
30–33). -/
def nonBlankLines (content : String) : List String :=
  ((splitOnChar '\n' (trimChars content.data)).map String.mk).filter
    (fun l => !(trimStr l == ""))

/-- Translation of `load_json_file` (source lines 15–41): try a whole-input
parse; a JSON array yields its elements, any other JSON value becomes a
one-element dataset; on failure, fall back to parsing each non-blank line,
silently skipping lines that fail. -/
def load_json_file (jl : String → Option Json) (content : String) : List Json :=
  match jl content with
  | some (Json.arr xs) => xs
  | some j => [j]
  | none => (nonBlankLines content).filterMap jl

/-- The outer `try`/`except` of `load_json_file`: an input whose UTF-8 decode
fails (modelled as `none`) is caught and an empty dataset returned. -/
def load_from_bytes (jl : String → Option Json) : Option String → List Json
  | none => []
  | some content => load_json_file jl content

/-- The caller's single diagnostic (source lines 88–90): an error message is
surfaced exactly when the returned dataset is empty. -/
def noDataDiagnostic (data : List Json) : Bool := data.isEmpty

/-- An instrument record: one JSON object row of the DataFrame, a mapping
from field names to values.  A key absent from the record is a missing cell
(`NaN`) in the corresponding column. -/
abbrev Record := List (String × Value)

/-- Cell of a record at a column: `none` means the record lacks the key. -/
def getCell (r : Record) (k : String) : Option Value := List.lookup k r

/-- Model of `k in df.columns` for a DataFrame built from a list of dicts:
the column exists when some record has the key.  Row filtering never changes
the column set, so this is evaluated on the originally parsed dataset. -/
def hasColumn (ds : List Record) (k : String) : Bool :=
  ds.any (fun r => (List.lookup k r).isSome)

/-- The trimmed string representation of a cell:
`df[field].astype(str).str.strip()` at one row. -/
def cellStrTrim (r : Record) (field : String) : String :=
  trimStr (pyStrCell (getCell r field))

/-- The non-null, non-blank string representations of a categorical column:
`df[field].dropna().astype(str)` restricted to `str.strip() != ''`
(source lines 118–119 and their clones). -/
def nonBlankStrs (field : String) (l : List Record) : List String :=
  l.filterMap (fun r =>
    match getCell r field with
    | none => none
    | some Value.null => none
    | some v => if trimStr (pyStr v) = "" then none else some (pyStr v))

/-- Byte-wise lexicographic comparison of character lists. -/
def charsLe : List Char → List Char → Bool
  | [], _ => true
  | _ :: _, [] => false
  | a :: as, b :: bs => if a = b then charsLe as bs else decide (a < b)

/-- Python string comparison (code-point lexicographic). -/
def strLeB (a b : String) : Bool := charsLe a.data b.data

/-- Insertion into a sorted list of strings. -/
def insertSorted (a : String) : List String → List String
  | [] => [a]
  | b :: t => if strLeB a b then a :: b :: t else b :: insertSorted a t

/-- Insertion sort: model of Python `sorted` on strings. -/
def sortStrs : List String → List String
  | [] => []
  | a :: t => insertSorted a (sortStrs t)

/-- A categorical control's domain: `sorted(values.unique().tolist())`
(source line 121 and its clones) — the sorted distinct non-blank string
representations of the column. -/
def catDomain (field : String) (l : List Record) : List String :=
  sortStrs (nonBlankStrs field l).dedup

/-- Is the categorical control offered (`if not values.empty`)? -/
def catFilterable (field : String) (l : List Record) : Bool :=
  !(nonBlankStrs field l).isEmpty

/-- One categorical filter block (source lines 116–124 and their clones):
`none` models the `All` sentinel; otherwise, when the column exists and has a
non-blank value, keep the rows whose trimmed string representation equals the
selected value. -/
def catStage (hc : Bool) (sel : Option String) (field : String) (l : List Record) :
    List Record :=
  match sel with
  | none => l
  | some v =>
    if hc && catFilterable field l then l.filter (fun r => cellStrTrim r field == v) else l

/-- Numeric-parsed `lot_size` values: `pd.to_numeric(df['lot_size'],
errors='coerce').dropna()`. -/
def lotVals (l : List Record) : List Dec :=
  l.filterMap (fun r => toNumericCell (getCell r "lot_size"))

/-- Numeric-parsed `strike_price` values. -/
def strikeVals (l : List Record) : List Dec :=
  l.filterMap (fun r => toNumericCell (getCell r "strike_price"))

/-- Distinct values under numeric equality: model of pandas `.unique()` on a
numeric series (the representation a value happens to carry is irrelevant). -/
def numDedup : List Dec → List Dec
  | [] => []
  | a :: t =>
    let d := numDedup t
    if d.any (fun b => a.deq b) then d else a :: d

/-- Numeric minimum of two decimals. -/
def dMin (a b : Dec) : Dec := if a.dle b then a else b

/-- Numeric maximum of two decimals. -/
def dMax (a b : Dec) : Dec := if a.dle b then b else a

/-- Minimum of a nonempty prefix element and a list. -/
def minCore (a : Dec) : List Dec → Dec
  | [] => a
  | b :: t => dMin a (minCore b t)

/-- Maximum of a nonempty prefix element and a list. -/
def maxCore (a : Dec) : List Dec → Dec
  | [] => a
  | b :: t => dMax a (maxCore b t)

/-- Model of `Series.min()` (junk value 0 on an empty list, never used under
the guards). -/
def dMinOf : List Dec → Dec
  | [] => Dec.ofInt 0
  | a :: t => minCore a t

/-- Model of `Series.max()`. -/
def dMaxOf : List Dec → Dec
  | [] => Dec.ofInt 0
  | a :: t => maxCore a t

/-- Is the lot-size slider offered (source lines 160–166): the column exists,
some value parses numerically, more than one distinct numeric value exists,
and the `int(...)`-truncated bounds differ. -/
def lotOffered (hc : Bool) (l : List Record) : Bool :=
  hc && !(lotVals l).isEmpty && decide (1 < (numDedup (lotVals l)).length)
    && !((dMinOf (lotVals l)).trunc == (dMaxOf (lotVals l)).trunc)

/-- The lot-size filter block (source lines 159–175): when the slider is
offered and set to `(lo, hi)`, keep rows whose numeric-parsed value lies in
`[lo, hi]`; rows that fail the numeric parse are dropped (`notna`). -/
def lotStage (hc : Bool) (sel : Option (ℤ × ℤ)) (l : List Record) : List Record :=
  match sel with
  | none => l
  | some (lo, hi) =>
    if lotOffered hc l then
      l.filter (fun r =>
        match toNumericCell (getCell r "lot_size") with
        | some q => (Dec.ofInt lo).dle q && q.dle (Dec.ofInt hi)
        | none => false)
    else l

/-- Is the strike-price slider offered (source lines 178–184): as for lot
size but with exact float bounds. -/
def strikeOffered (hc : Bool) (l : List Record) : Bool :=
  hc && !(strikeVals l).isEmpty && decide (1 < (numDedup (strikeVals l)).length)
    && !((dMinOf (strikeVals l)).deq (dMaxOf (strikeVals l)))

/-- The strike-price filter block (source lines 177–193). -/
def strikeStage (hc : Bool) (sel : Option (Dec × Dec)) (l : List Record) : List Record :=
  match sel with
  | none => l
  | some (lo, hi) =>
    if strikeOffered hc l then
      l.filter (fun r =>
        match toNumericCell (getCell r "strike_price") with
        | some q => lo.dle q && q.dle hi
        | none => false)
    else l

/-- Is the weekly radio offered (source lines 196–199): the column exists and
some value is non-null — boolean or not. -/
def weeklyOffered (hc : Bool) (l : List Record) : Bool :=
  hc && l.any (fun r => !(isnaCell (getCell r "weekly")))

/-- The weekly filter block (source lines 195–204): `some true` models
`Weekly Only` (`df[df['weekly'] == True]`), `some false` models
`Monthly Only`; the comparison is pandas elementwise Python equality. -/
def weeklyStage (hc : Bool) (sel : Option Bool) (l : List Record) : List Record :=
  match sel with
  | none => l
  | some b =>
    if weeklyOffered hc l then l.filter (fun r => pyEqB (getCell r "weekly") b) else l

/-- The search filter block (source lines 206–210): a non-empty term keeps
rows whose `astype(str)` rendering of `trading_symbol` matches the term
case-insensitively (missing cells render as `"nan"` before the match). -/
def searchStage (hc : Bool) (term : String) (l : List Record) : List Record :=
  if term = "" then l
  else if hc then
    l.filter (fun r => strContainsCI (pyStrCell (getCell r "trading_symbol")) term)
  else l

/-- A filter selection: the current value of every sidebar control.  `none`
is the `All` / no-restriction sentinel of each control; `search` is the text
box (empty = no restriction). -/
structure Selection where
  exchange : Option String
  instrument_type : Option String
  segment : Option String
  underlying_type : Option String
  lot_size : Option (ℤ × ℤ)
  strike_price : Option (Dec × Dec)
  weekly : Option Bool
  search : String

/-- Replace only the search term of a selection. -/
def withSearch (sel : Selection) (t : String) : Selection :=
  ⟨sel.exchange, sel.instrument_type, sel.segment, sel.underlying_type, sel.lot_size,
    sel.strike_price, sel.weekly, t⟩

/-- The filter pipeline of `main` up to but excluding the search box (source
lines 112–204), in source order.  Each stage recomputes its own availability
guard and domain from the dataset it receives — the already-filtered one. -/
def preSearch (hc : String → Bool) (sel : Selection) (ds : List Record) : List Record :=
  weeklyStage (hc "weekly") sel.weekly
    (strikeStage (hc "strike_price") sel.strike_price
      (lotStage (hc "lot_size") sel.lot_size
        (catStage (hc "underlying_type") sel.underlying_type "underlying_type"
          (catStage (hc "segment") sel.segment "segment"
            (catStage (hc "instrument_type") sel.instrument_type "instrument_type"
              (catStage (hc "exchange") sel.exchange "exchange" ds))))))

/-- The whole filter pipeline of `main` (source lines 112–210), in source
order, with the column tests `hc` fixed to the originally parsed dataset's
columns. -/
def applyFiltersAux (hc : String → Bool) (sel : Selection) (ds : List Record) :
    List Record :=
  searchStage (hc "trading_symbol") sel.search (preSearch hc sel ds)

/-- Filtering as `main` performs it on the parsed dataset. -/
def applyFilters (sel : Selection) (ds : List Record) : List Record :=
  applyFiltersAux (fun k => hasColumn ds k) sel ds

/-- The dataset the instrument-type block receives: the one already filtered
by the exchange block (source line 129 reads the `df` reassigned at 124). -/
def dfAfterExchange (sel : Selection) (ds : List Record) : List Record :=
  catStage (hasColumn ds "exchange") sel.exchange "exchange" ds

/-- The instrument-type domain the running program offers, as a function of
the current selection: computed from `dfAfterExchange`, not from `ds`. -/
def offeredInstrumentTypeDomain (sel : Selection) (ds : List Record) : List String :=
  catDomain "instrument_type" (dfAfterExchange sel ds)

/-- First-occurrence deduplication (pandas column order for a DataFrame built
from a list of dicts). -/
def dedupFirst : List String → List String
  | [] => []
  | a :: t => a :: (dedupFirst t).filter (fun x => !(x == a))

/-- The DataFrame's columns: union of the records' keys in first-seen order. -/
def columnsOf (ds : List Record) : List String :=
  dedupFirst (ds.flatMap (fun r => r.map Prod.fst))

/-- One CSV field of `df.to_csv`: missing cells are empty, other values
render as strings. -/
def csvCell : Option Value → String
  | none => ""
  | some Value.null => ""
  | some v => pyStr v

/-- One CSV row: the record's cells in column order. -/
def csvRowOf (cols : List String) (r : Record) : List String :=
  cols.map (fun c => csvCell (getCell r c))

/-- The exported CSV rows of `df.to_csv(index=False)` (source line 247): one
row per record of the filtered dataset, in order, raw (unformatted) values. -/
def csvRows (cols : List String) (l : List Record) : List (List String) :=
  l.map (csvRowOf cols)

/-- The candidate display columns of the results table (source lines
229–233). -/
def availableColumns : List String :=
  ["instrument_key", "name", "trading_symbol", "instrument_type", "exchange", "segment",
   "underlying_symbol", "underlying_type", "expiry_date", "strike_price_formatted",
   "lot_size", "minimum_lot", "tick_size", "exchange_token", "weekly"]

/-- Model of `display_df`'s extra formatted columns (source lines 220–225), appended
to a copy of the row. -/
def augmentRecord (hasE hasS : Bool) (r : Record) : Record :=
  (r ++ (if hasE then
    [("expiry_date", Value.str (convert_timestamp renderUTC (getCell r "expiry")))] else []))
    ++ (if hasS then
      [("strike_price_formatted", Value.str (format_currency (getCell r "strike_price")))]
    else [])

/-- The display columns actually shown: the candidates present among the
DataFrame's columns plus the formatted ones (source lines 235–237). -/
def displayColsOf (cols : List String) : List String :=
  availableColumns.filter (fun c =>
    (cols ++ (if cols.contains "expiry" then ["expiry_date"] else [])
      ++ (if cols.contains "strike_price" then ["strike_price_formatted"] else [])).contains c)

/-- One displayed row of the results table: the augmented record projected to
the display columns (a missing cell shows as null/NaN). -/
def displayRowOf (cols : List String) (r : Record) : Record :=
  (displayColsOf cols).map (fun c =>
    (c, (getCell (augmentRecord (cols.contains "expiry") (cols.contains "strike_price") r)
      c).getD Value.null))

/-- The displayed results table (source lines 240–244): one row per filtered
record, in order. -/
def displayTable (cols : List String) (l : List Record) : List Record :=
  l.map (displayRowOf cols)

/-- A selection with every control at its no-restriction value. -/
def noSelection : Selection := ⟨none, none, none, none, none, none, none, ""⟩

/-- Two-record dataset over `exchange` and `instrument_type` (for the domain
claims). -/
def dsDomains : List Record :=
  [[("exchange", Value.str "NSE"), ("instrument_type", Value.str "FUT")],
   [("exchange", Value.str "BSE"), ("instrument_type", Value.str "OPT")]]

/-- Selecting `NSE` on the exchange control only. -/
def selNSE : Selection := ⟨some "NSE", none, none, none, none, none, none, ""⟩

/-- A record whose `weekly` field is the number 1, not a boolean. -/
def recWeeklyNum : Record := [("weekly", Value.intV 1)]

/-- A record whose `weekly` field is the boolean `True`. -/
def recWeeklyBool : Record := [("weekly", Value.boolV true)]

/-- A record with no `trading_symbol` key at all. -/
def recNoSymbol : Record := [("name", Value.str "a")]

/-- A record whose `trading_symbol` is `"X"`. -/
def recSymbolX : Record := [("trading_symbol", Value.str "X")]

/-- Dataset mixing a missing and a present `trading_symbol`. -/
def dsSearch : List Record := [recNoSymbol, recSymbolX]

/-- Selection searching for `"an"` in the trading symbol. -/
def selSearchAn : Selection := ⟨none, none, none, none, none, none, none, "an"⟩

/-- Record on exchange NSE with lot size 10. -/
def recNSE10 : Record := [("exchange", Value.str "NSE"), ("lot_size", Value.intV 10)]

/-- Record on exchange BSE with lot size 20. -/
def recBSE20 : Record := [("exchange", Value.str "BSE"), ("lot_size", Value.intV 20)]

/-- Dataset for the monotonicity counterexample. -/
def dsMono : List Record := [recNSE10, recBSE20]

/-- Lot-size range restricted to `[15, 20]`, everything else unrestricted. -/
def selLot : Selection := ⟨none, none, none, none, some (15, 20), none, none, ""⟩

/-- The same selection with the additional constraint `exchange = NSE`. -/
def selLotNSE : Selection := ⟨some "NSE", none, none, none, some (15, 20), none, none, ""⟩

/-- Dataset whose lot sizes are 50 and 75.5: the slider the code offers is
int-truncated to `[50, 75]`. -/
def dsLot : List Record :=
  [[("lot_size", Value.intV 50)], [("lot_size", Value.floatV ⟨755, 1⟩)]]

/-- Dataset with strike prices 100 and 200. -/
def dsStrike : List Record :=
  [[("strike_price", Value.intV 100)], [("strike_price", Value.intV 200)]]

/-- A JSONL line holding the object `a ↦ 1`. -/
def lineA : String := "\x7b\"a\": 1\x7d"

/-- A JSONL line holding the object `b ↦ 2`. -/
def lineB : String := "\x7b\"b\": 2\x7d"

/-- The parse of `lineA`. -/
def objA : Json := Json.obj [("a", Json.numJ (Dec.ofInt 1))]

/-- The parse of `lineB`. -/
def objB : Json := Json.obj [("b", Json.numJ (Dec.ofInt 2))]

/-- Line-delimited content: a valid line, an invalid line, a valid line. -/
def contentLines : String := lineA ++ "\nBAD\n" ++ lineB

/-- A whole-input JSON array holding both objects. -/
def arrText : String := "[" ++ lineA ++ ", " ++ lineB ++ "]"

/-- Content none of whose lines parse. -/
def contentJunk : String := "xx\nyy"

/-- A concrete `json.loads` oracle for the demonstration inputs above: it
parses exactly `lineA`, `lineB` and `arrText`, and fails on everything else
(in particular on multi-line content, which is not valid JSON). -/
def jloadsDemo (s : String) : Option Json :=
  if s = lineA then some objA
  else if s = lineB then some objB
  else if s = arrText then some (Json.arr [objA, objB])
  else none

/-- The numeric reading both coercions apply to their input once the
sentinel checks have passed: strings through `float(...)`, numbers as
themselves, booleans as 1/0. -/
def numericInterp : Option Value → Option Dec
  | some (Value.str s) => parseFloat s
  | some (Value.intV n) => some (Dec.ofInt n)
  | some (Value.floatV q) => some q
  | some (Value.boolV b) => some (Dec.ofInt (if b then 1 else 0))
  | _ => none

/-- The amended currency-coercion specification, written from the corrected
claim's words: an absent/null, empty-string, or Python-equal-to-zero input
yields the zero rendering `"₹0.00"`; an input whose numeric parse fails
yields the sentinel `"N/A"`; every other input is rendered with the fixed
symbol, thousands separators and exactly two decimals. -/
def currencySpec (cell : Option Value) : String :=
  if isnaCell cell || isEmptyStrCell cell || pyEqZeroCell cell then "₹0.00"
  else
    match numericInterp cell with
    | none => "N/A"
    | some q => currencyFmt q

/-- The amended timestamp-coercion specification, written from the corrected
claim's words: an absent/null, empty-string, or Python-equal-to-zero input
yields `"N/A"`; an input whose numeric parse fails yields `"Invalid"` (not
`"N/A"`); otherwise the value is divided by 1000 and rendered as a calendar
string, any rendering failure also yielding `"Invalid"`. -/
def timestampSpec (render : Dec → Option String) (cell : Option Value) : String :=
  if isnaCell cell || isEmptyStrCell cell || pyEqZeroCell cell then "N/A"
  else
    match numericInterp cell with
    | none => "Invalid"
    | some q => (render q.div1000).getD "Invalid"

/-- The exchange domain the running program offers: the exchange block is the
first one, so its input is the originally parsed dataset itself (source lines
116–121). -/
def offeredExchangeDomain (_sel : Selection) (ds : List Record) : List String :=
  catDomain "exchange" ds

/-- The dataset the segment block receives: the one already narrowed by the
exchange and instrument-type blocks (source line 140 reads the `df`
reassigned at 124 and 135). -/
def dfBeforeSegment (sel : Selection) (ds : List Record) : List Record :=
  catStage (hasColumn ds "instrument_type") sel.instrument_type "instrument_type"
    (dfAfterExchange sel ds)

/-- The segment domain the running program offers, computed from
`dfBeforeSegment`. -/
def offeredSegmentDomain (sel : Selection) (ds : List Record) : List String :=
  catDomain "segment" (dfBeforeSegment sel ds)

/-- The dataset the underlying-type block receives (source line 151). -/
def dfBeforeUnderlying (sel : Selection) (ds : List Record) : List Record :=
  catStage (hasColumn ds "segment") sel.segment "segment" (dfBeforeSegment sel ds)

/-- The underlying-type domain the running program offers, computed from
`dfBeforeUnderlying`. -/
def offeredUnderlyingTypeDomain (sel : Selection) (ds : List Record) : List String :=
  catDomain "underlying_type" (dfBeforeUnderlying sel ds)

/-- The dataset the lot-size block receives (source line 162). -/
def dfBeforeLot (sel : Selection) (ds : List Record) : List Record :=
  catStage (hasColumn ds "underlying_type") sel.underlying_type "underlying_type"
    (dfBeforeUnderlying sel ds)

/-- The dataset the strike-price block receives (source line 180). -/
def dfBeforeStrike (sel : Selection) (ds : List Record) : List Record :=
  lotStage (hasColumn ds "lot_size") sel.lot_size (dfBeforeLot sel ds)

/-- The dataset the weekly block receives (source line 198). -/
def dfBeforeWeekly (sel : Selection) (ds : List Record) : List Record :=
  strikeStage (hasColumn ds "strike_price") sel.strike_price (dfBeforeStrike sel ds)

/-- The dataset the search block receives (source line 210). -/
def dfBeforeSearch (sel : Selection) (ds : List Record) : List Record :=
  weeklyStage (hasColumn ds "weekly") sel.weekly (dfBeforeWeekly sel ds)

/-- Unfolding of `tenPow` to a power. -/
theorem tenPow_eq (n : ℕ) : tenPow n = (10 : ℤ) ^ n := by
  induction n with
  | zero => rfl
  | succ k ih => rw [tenPow, ih, pow_succ]; ring

/-- Powers of ten are positive. -/
theorem tenPow_pos (n : ℕ) : (0 : ℤ) < tenPow n := by
  rw [tenPow_eq]; positivity

/-- The decimal order is reflexive. -/
theorem Dec.dle_refl (a : Dec) : a.dle a = true := by
  unfold Dec.dle; rw [decide_eq_true_eq]

/-- The decimal order is total. -/
theorem Dec.dle_total (a b : Dec) : a.dle b = true ∨ b.dle a = true := by
  unfold Dec.dle; rw [decide_eq_true_eq, decide_eq_true_eq]
  exact le_total _ _

/-- The decimal order is transitive. -/
theorem Dec.dle_trans (a b c : Dec) (h1 : a.dle b = true) (h2 : b.dle c = true) :
    a.dle c = true := by
  unfold Dec.dle at h1 h2 ⊢
  rw [decide_eq_true_eq] at h1 h2 ⊢
  have ha := tenPow_pos a.exp
  have hb := tenPow_pos b.exp
  have hc := tenPow_pos c.exp
  have k1 := mul_le_mul_of_nonneg_right h1 (le_of_lt hc)
  have k2 := mul_le_mul_of_nonneg_right h2 (le_of_lt ha)
  have k3 : a.num * tenPow c.exp * tenPow b.exp ≤ c.num * tenPow a.exp * tenPow b.exp := by
    nlinarith
  exact le_of_mul_le_mul_right k3 hb

/-- Lemma: `minCore` bounds every member from below. -/
theorem minCore_dle (l : List Dec) : ∀ (a : Dec), ∀ x ∈ a :: l, (minCore a l).dle x = true := by
  induction l with
  | nil =>
    intro a x hx
    have : x = a := by simpa using hx
    subst this
    exact Dec.dle_refl x
  | cons b t ih =>
    intro a x hx
    have hms : minCore a (b :: t) = dMin a (minCore b t) := rfl
    rcases List.mem_cons.mp hx with rfl | hx'
    · rw [hms]; unfold dMin
      by_cases h : Dec.dle x (minCore b t) = true
      · rw [if_pos h]; exact Dec.dle_refl x
      · rw [if_neg h]
        rcases Dec.dle_total (minCore b t) x with h2 | h2
        · exact h2
        · cases h h2
    · have hx2 := ih b x hx'
      rw [hms]; unfold dMin
      by_cases h : Dec.dle a (minCore b t) = true
      · rw [if_pos h]; exact Dec.dle_trans _ _ _ h hx2
      · rw [if_neg h]; exact hx2

/-- Lemma: `maxCore` bounds every member from above. -/
theorem dle_maxCore (l : List Dec) : ∀ (a : Dec), ∀ x ∈ a :: l, x.dle (maxCore a l) = true := by
  induction l with
  | nil =>
    intro a x hx
    have : x = a := by simpa using hx
    subst this
    exact Dec.dle_refl x
  | cons b t ih =>
    intro a x hx
    have hms : maxCore a (b :: t) = dMax a (maxCore b t) := rfl
    rcases List.mem_cons.mp hx with rfl | hx'
    · rw [hms]; unfold dMax
      by_cases h : Dec.dle x (maxCore b t) = true
      · rw [if_pos h]; exact h
      · rw [if_neg h]
        rcases Dec.dle_total x (maxCore b t) with h2 | h2
        · cases h h2
        · exact Dec.dle_refl x
    · have hx2 := ih b x hx'
      rw [hms]; unfold dMax
      by_cases h : Dec.dle a (maxCore b t) = true
      · rw [if_pos h]; exact hx2
      · rw [if_neg h]
        rcases Dec.dle_total a (maxCore b t) with h2 | h2
        · cases h h2
        · exact Dec.dle_trans _ _ _ hx2 h2

/-- The observed minimum bounds every observed value. -/
theorem dMinOf_dle (l : List Dec) : ∀ x ∈ l, (dMinOf l).dle x = true := by
  cases l with
  | nil => intro x hx; cases hx
  | cons a t => exact minCore_dle t a

/-- The observed maximum bounds every observed value. -/
theorem dle_dMaxOf (l : List Dec) : ∀ x ∈ l, x.dle (dMaxOf l) = true := by
  cases l with
  | nil => intro x hx; cases hx
  | cons a t => exact dle_maxCore t a

/-- Membership through sorted insertion. -/
theorem mem_insertSorted (a x : String) (l : List String) :
    x ∈ insertSorted a l ↔ x = a ∨ x ∈ l := by
  induction l with
  | nil => simp [insertSorted]
  | cons b t ih =>
    unfold insertSorted
    split
    · simp [List.mem_cons]
    · simp only [List.mem_cons, ih]
      tauto

/-- Sorting does not change membership. -/
theorem mem_sortStrs (x : String) (l : List String) : x ∈ sortStrs l ↔ x ∈ l := by
  induction l with
  | nil => simp [sortStrs]
  | cons a t ih => simp [sortStrs, mem_insertSorted, ih]

/-- A `filterMap` has as many elements as the entries it succeeds on. -/
theorem filterMap_length_eq {α β : Type} (f : α → Option β) (l : List α) :
    (l.filterMap f).length = (l.filter (fun a => (f a).isSome)).length := by
  induction l with
  | nil => rfl
  | cons a t ih =>
    cases hfa : f a with
    | none => simp [List.filterMap_cons, List.filter_cons, hfa, ih]
    | some b => simp [List.filterMap_cons, List.filter_cons, hfa, ih]

/-- A categorical filter block only narrows the dataset. -/
theorem catStage_sublist (hc : Bool) (sel : Option String) (field : String)
    (l : List Record) : (catStage hc sel field l).Sublist l := by
  cases sel with
  | none => exact List.Sublist.refl l
  | some v =>
    simp only [catStage]
    split
    · exact List.filter_sublist l
    · exact List.Sublist.refl l

/-- The lot-size filter block only narrows the dataset. -/
theorem lotStage_sublist (hc : Bool) (sel : Option (ℤ × ℤ)) (l : List Record) :
    (lotStage hc sel l).Sublist l := by
  cases sel with
  | none => exact List.Sublist.refl l
  | some p =>
    obtain ⟨lo, hi⟩ := p
    simp only [lotStage]
    split
    · exact List.filter_sublist l
    · exact List.Sublist.refl l

/-- The strike-price filter block only narrows the dataset. -/
theorem strikeStage_sublist (hc : Bool) (sel : Option (Dec × Dec)) (l : List Record) :
    (strikeStage hc sel l).Sublist l := by
  cases sel with
  | none => exact List.Sublist.refl l
  | some p =>
    obtain ⟨lo, hi⟩ := p
    simp only [strikeStage]
    split
    · exact List.filter_sublist l
    · exact List.Sublist.refl l

/-- The weekly filter block only narrows the dataset. -/
theorem weeklyStage_sublist (hc : Bool) (sel : Option Bool) (l : List Record) :
    (weeklyStage hc sel l).Sublist l := by
  cases sel with
  | none => exact List.Sublist.refl l
  | some b =>
    simp only [weeklyStage]
    split
    · exact List.filter_sublist l
    · exact List.Sublist.refl l

/-- The search filter block only narrows the dataset. -/
theorem searchStage_sublist (hc : Bool) (term : String) (l : List Record) :
    (searchStage hc term l).Sublist l := by
  unfold searchStage
  split
  · exact List.Sublist.refl l
  · split
    · exact List.filter_sublist l
    · exact List.Sublist.refl l

/-- The empty search term is a no-op. -/
theorem searchStage_empty (hc : Bool) (l : List Record) : searchStage hc "" l = l := by
  unfold searchStage
  simp

/-- The pipeline up to the search box only narrows the dataset. -/
theorem preSearch_sublist (hc : String → Bool) (sel : Selection) (ds : List Record) :
    (preSearch hc sel ds).Sublist ds := by
  unfold preSearch
  refine List.Sublist.trans (weeklyStage_sublist _ _ _) ?_
  refine List.Sublist.trans (strikeStage_sublist _ _ _) ?_
  refine List.Sublist.trans (lotStage_sublist _ _ _) ?_
  refine List.Sublist.trans (catStage_sublist _ _ _ _) ?_
  refine List.Sublist.trans (catStage_sublist _ _ _ _) ?_
  refine List.Sublist.trans (catStage_sublist _ _ _ _) ?_
  exact catStage_sublist _ _ _ _

/-- The whole pipeline only narrows the dataset. -/
theorem applyFilters_sublist (sel : Selection) (ds : List Record) :
    (applyFilters sel ds).Sublist ds := by
  unfold applyFilters applyFiltersAux
  exact (searchStage_sublist _ _ _).trans (preSearch_sublist _ _ _)

/-- Claim C1 (amended): for every input, the currency coercion yields the
zero rendering `"₹0.00"` when the input is absent/null, the empty string, or
Python-equal to zero; it yields the sentinel `"N/A"` exactly on numeric-parse
failure; every other numeric-or-numeric-string input is rendered with the
fixed symbol, thousands separators and exactly two decimal places
(1234.5 renders as `"₹1,234.50"`). -/
theorem C1_amended :
    (∀ cell, format_currency cell = currencySpec cell)
    ∧ format_currency (some (Value.floatV ⟨12345, 1⟩)) = "₹1,234.50"
    ∧ format_currency (some (Value.str "1234.5")) = "₹1,234.50"
    ∧ format_currency (some (Value.str "abc")) = "N/A" := by
  refine ⟨?_, by decide, by decide, by decide⟩
  intro cell
  match cell with
  | none => rfl
  | some Value.null => rfl
  | some (Value.str s) =>
    by_cases hs : s = ""
    · subst hs; rfl
    · simp [format_currency, currencySpec, isnaCell, isEmptyStrCell, pyEqZeroCell,
        numericInterp, hs]
  | some (Value.intV n) =>
    by_cases hn : n = 0
    · subst hn; rfl
    · simp [format_currency, currencySpec, isnaCell, isEmptyStrCell, pyEqZeroCell,
        numericInterp, hn]
  | some (Value.floatV q) =>
    by_cases hq : Dec.deq q (Dec.ofInt 0) = true
    · simp [format_currency, currencySpec, isnaCell, isEmptyStrCell, pyEqZeroCell,
        numericInterp, hq]
    · simp [format_currency, currencySpec, isnaCell, isEmptyStrCell, pyEqZeroCell,
        numericInterp, hq]
  | some (Value.boolV b) => cases b <;> rfl

/-- Claim C1 (counterexample): an absent, empty-string or zero input does not
yield the program's "not applicable" sentinel `"N/A"` — it yields the zero
rendering `"₹0.00"`, so the claimed "exactly when" characterisation of the
sentinel fails at the empty string (and at every absent/zero input). -/
theorem C1_counterexample :
    format_currency (some (Value.str "")) = "₹0.00"
    ∧ format_currency none = "₹0.00"
    ∧ format_currency (some Value.null) = "₹0.00"
    ∧ format_currency (some (Value.intV 0)) = "₹0.00"
    ∧ ("₹0.00" : String) ≠ "N/A"
    ∧ convert_timestamp renderUTC none = "N/A" := by
  decide

/-- Claim C5 (amended): the timestamp coercion yields `"N/A"` when the input
is absent/null, the empty string, or Python-equal to zero; a non-empty string
that fails numeric parse yields `"Invalid"` (not `"N/A"`), as does any
calendar-conversion failure; otherwise the value is divided by 1000 and
rendered as a `YYYY-MM-DD HH:MM:SS` string in the process's local zone
(instantiated to UTC here). -/
theorem C5_amended :
    (∀ render cell, convert_timestamp render cell = timestampSpec render cell)
    ∧ convert_timestamp renderUTC (some (Value.intV 0)) = "N/A"
    ∧ convert_timestamp renderUTC (some (Value.str "")) = "N/A"
    ∧ convert_timestamp renderUTC (some (Value.intV 2111423399000)) = "2036-11-27 18:29:59"
    ∧ convert_timestamp renderUTC (some (Value.str "1e20")) = "Invalid" := by
  refine ⟨?_, by decide, by decide, by decide, by decide⟩
  intro render cell
  match cell with
  | none => rfl
  | some Value.null => rfl
  | some (Value.str s) =>
    by_cases hs : s = ""
    · subst hs; rfl
    · simp [convert_timestamp, timestampSpec, isnaCell, isEmptyStrCell, pyEqZeroCell,
        numericInterp, hs]
  | some (Value.intV n) =>
    by_cases hn : n = 0
    · subst hn; rfl
    · simp [convert_timestamp, timestampSpec, isnaCell, isEmptyStrCell, pyEqZeroCell,
        numericInterp, hn]
  | some (Value.floatV q) =>
    by_cases hq : Dec.deq q (Dec.ofInt 0) = true
    · simp [convert_timestamp, timestampSpec, isnaCell, isEmptyStrCell, pyEqZeroCell,
        numericInterp, hq]
    · simp [convert_timestamp, timestampSpec, isnaCell, isEmptyStrCell, pyEqZeroCell,
        numericInterp, hq]
  | some (Value.boolV b) => cases b <;> rfl

/-- Claim C5 (counterexample): a non-numeric string yields `"Invalid"`, not
the claimed "not applicable" sentinel `"N/A"` (the program's `"N/A"` is what
absent/zero inputs produce, as the final conjunct shows). -/
theorem C5_counterexample :
    convert_timestamp renderUTC (some (Value.str "abc")) = "Invalid"
    ∧ ("Invalid" : String) ≠ "N/A"
    ∧ convert_timestamp renderUTC (some (Value.intV 0)) = "N/A" := by
  decide

/-- A categorical domain computed over a sub-dataset is a subset of the one
computed over the whole dataset. -/
theorem catDomain_subset (field : String) {l1 l2 : List Record} (h : l1.Sublist l2) :
    ∀ x ∈ catDomain field l1, x ∈ catDomain field l2 := by
  intro x hx
  unfold catDomain at hx ⊢
  rw [mem_sortStrs, List.mem_dedup] at hx ⊢
  have hsub : (nonBlankStrs field l1).Sublist (nonBlankStrs field l2) := by
    unfold nonBlankStrs
    exact List.Sublist.filterMap _ h
  exact hsub.subset hx

/-- Lemma: `minCore` returns a member of its inputs. -/
theorem minCore_mem (l : List Dec) : ∀ a : Dec, minCore a l ∈ a :: l := by
  induction l with
  | nil => intro a; simp [minCore]
  | cons b t ih =>
    intro a
    have hms : minCore a (b :: t) = dMin a (minCore b t) := rfl
    rw [hms]
    unfold dMin
    split
    · exact List.mem_cons_self a (b :: t)
    · exact List.mem_cons_of_mem a (ih b)

/-- Lemma: `maxCore` returns a member of its inputs. -/
theorem maxCore_mem (l : List Dec) : ∀ a : Dec, maxCore a l ∈ a :: l := by
  induction l with
  | nil => intro a; simp [maxCore]
  | cons b t ih =>
    intro a
    have hms : maxCore a (b :: t) = dMax a (maxCore b t) := rfl
    rw [hms]
    unfold dMax
    split
    · exact List.mem_cons_of_mem a (ih b)
    · exact List.mem_cons_self a (b :: t)

/-- The observed minimum of a nonempty list is one of its values. -/
theorem dMinOf_mem (l : List Dec) (h : l ≠ []) : dMinOf l ∈ l := by
  cases l with
  | nil => cases h rfl
  | cons a t => exact minCore_mem t a

/-- The observed maximum of a nonempty list is one of its values. -/
theorem dMaxOf_mem (l : List Dec) (h : l ≠ []) : dMaxOf l ∈ l := by
  cases l with
  | nil => cases h rfl
  | cons a t => exact maxCore_mem t a

/-- The exchange block's input is the whole dataset (trivially a sublist). -/
theorem dfAfterExchange_sublist (sel : Selection) (ds : List Record) :
    (dfAfterExchange sel ds).Sublist ds :=
  catStage_sublist _ _ _ _

/-- The segment block's input only narrows the dataset. -/
theorem dfBeforeSegment_sublist (sel : Selection) (ds : List Record) :
    (dfBeforeSegment sel ds).Sublist ds :=
  (catStage_sublist _ _ _ _).trans (dfAfterExchange_sublist sel ds)

/-- The underlying-type block's input only narrows the dataset. -/
theorem dfBeforeUnderlying_sublist (sel : Selection) (ds : List Record) :
    (dfBeforeUnderlying sel ds).Sublist ds :=
  (catStage_sublist _ _ _ _).trans (dfBeforeSegment_sublist sel ds)

/-- The lot-size block's input only narrows the dataset. -/
theorem dfBeforeLot_sublist (sel : Selection) (ds : List Record) :
    (dfBeforeLot sel ds).Sublist ds :=
  (catStage_sublist _ _ _ _).trans (dfBeforeUnderlying_sublist sel ds)

/-- The strike-price block's input only narrows the dataset. -/
theorem dfBeforeStrike_sublist (sel : Selection) (ds : List Record) :
    (dfBeforeStrike sel ds).Sublist ds :=
  (lotStage_sublist _ _ _).trans (dfBeforeLot_sublist sel ds)

/-- The weekly block's input only narrows the dataset. -/
theorem dfBeforeWeekly_sublist (sel : Selection) (ds : List Record) :
    (dfBeforeWeekly sel ds).Sublist ds :=
  (strikeStage_sublist _ _ _).trans (dfBeforeStrike_sublist sel ds)

/-- The `dfBefore*` prefixes are the pipeline's actual intermediates: the
whole pipeline is the search stage applied to the search block's input. -/
theorem applyFilters_eq_stages (sel : Selection) (ds : List Record) :
    applyFilters sel ds
      = searchStage (hasColumn ds "trading_symbol") sel.search (dfBeforeSearch sel ds) := rfl

/-- Offering of the weekly radio propagates from a sub-dataset to the whole
dataset. -/
theorem weeklyOffered_mono (hc : Bool) {l1 l2 : List Record} (h : l1.Sublist l2) :
    weeklyOffered hc l1 = true → weeklyOffered hc l2 = true := by
  unfold weeklyOffered
  intro hw
  rw [Bool.and_eq_true] at hw ⊢
  obtain ⟨h1, h2⟩ := hw
  rw [List.any_eq_true] at h2
  obtain ⟨r, hr, hp⟩ := h2
  exact ⟨h1, List.any_eq_true.mpr ⟨r, h.subset hr, hp⟩⟩

/-- Claim C2 (amended): each control's domain is computed from the dataset as
already narrowed by the blocks earlier in the fixed control order, so an
earlier selection can shrink a later control's domain; still, for every
control the offered domain stays within the full-Dataset one: the exchange
domain (first block) is exactly the full-Dataset domain; the offered
instrument-type, segment and underlying-type domains are subsets of the
full-Dataset domains; the lot-size and strike-price values observed at their
blocks are sub-multisets of the full-Dataset observed values, so each offered
`[min, max]` lies within the full-Dataset `[min, max]`; and whenever the
weekly control is offered under a selection it is also offered on the full
Dataset. -/
theorem C2_amended : ∀ (sel : Selection) (ds : List Record),
    offeredExchangeDomain sel ds = catDomain "exchange" ds
    ∧ (∀ x ∈ offeredInstrumentTypeDomain sel ds, x ∈ catDomain "instrument_type" ds)
    ∧ (∀ x ∈ offeredSegmentDomain sel ds, x ∈ catDomain "segment" ds)
    ∧ (∀ x ∈ offeredUnderlyingTypeDomain sel ds, x ∈ catDomain "underlying_type" ds)
    ∧ (lotVals (dfBeforeLot sel ds)).Sublist (lotVals ds)
    ∧ (lotVals (dfBeforeLot sel ds) ≠ [] →
        (dMinOf (lotVals ds)).dle (dMinOf (lotVals (dfBeforeLot sel ds))) = true
        ∧ (dMaxOf (lotVals (dfBeforeLot sel ds))).dle (dMaxOf (lotVals ds)) = true)
    ∧ (strikeVals (dfBeforeStrike sel ds)).Sublist (strikeVals ds)
    ∧ (strikeVals (dfBeforeStrike sel ds) ≠ [] →
        (dMinOf (strikeVals ds)).dle (dMinOf (strikeVals (dfBeforeStrike sel ds))) = true
        ∧ (dMaxOf (strikeVals (dfBeforeStrike sel ds))).dle (dMaxOf (strikeVals ds)) = true)
    ∧ (weeklyOffered (hasColumn ds "weekly") (dfBeforeWeekly sel ds) = true →
        weeklyOffered (hasColumn ds "weekly") ds = true) := by
  intro sel ds
  have hlot : (lotVals (dfBeforeLot sel ds)).Sublist (lotVals ds) := by
    unfold lotVals
    exact List.Sublist.filterMap _ (dfBeforeLot_sublist sel ds)
  have hstrike : (strikeVals (dfBeforeStrike sel ds)).Sublist (strikeVals ds) := by
    unfold strikeVals
    exact List.Sublist.filterMap _ (dfBeforeStrike_sublist sel ds)
  refine ⟨rfl, ?_, ?_, ?_, hlot, ?_, hstrike, ?_, ?_⟩
  · exact catDomain_subset "instrument_type" (dfAfterExchange_sublist sel ds)
  · exact catDomain_subset "segment" (dfBeforeSegment_sublist sel ds)
  · exact catDomain_subset "underlying_type" (dfBeforeUnderlying_sublist sel ds)
  · intro hne
    exact ⟨dMinOf_dle (lotVals ds) _ (hlot.subset (dMinOf_mem _ hne)),
      dle_dMaxOf (lotVals ds) _ (hlot.subset (dMaxOf_mem _ hne))⟩
  · intro hne
    exact ⟨dMinOf_dle (strikeVals ds) _ (hstrike.subset (dMinOf_mem _ hne)),
      dle_dMaxOf (strikeVals ds) _ (hstrike.subset (dMaxOf_mem _ hne))⟩
  · exact weeklyOffered_mono _ (dfBeforeWeekly_sublist sel ds)

/-- Claim C2 (counterexample): on a two-record dataset, selecting
`exchange = NSE` shrinks the instrument-type domain the program offers from
`["FUT", "OPT"]` (the full-Dataset domain) to `["FUT"]` — the domain is not
computed from the full original Dataset and is not independent of the other
controls' selections. -/
theorem C2_counterexample :
    offeredInstrumentTypeDomain selNSE dsDomains = ["FUT"]
    ∧ catDomain "instrument_type" dsDomains = ["FUT", "OPT"]
    ∧ offeredInstrumentTypeDomain selNSE dsDomains ≠ catDomain "instrument_type" dsDomains := by
  decide

/-- Claim C2 (witness for the amended theorem): exercises the membership
hypothesis of the instrument-type clause and the nonemptiness hypothesis of
the lot-bounds clause at concrete datasets. -/
theorem C2_amended_witness :
    ("FUT" : String) ∈ catDomain "instrument_type" dsDomains
    ∧ (dMinOf (lotVals dsMono)).dle (dMinOf (lotVals (dfBeforeLot selLot dsMono))) = true :=
  ⟨(C2_amended selNSE dsDomains).2.1 "FUT" (by decide),
   ((C2_amended selLot dsMono).2.2.2.2.2.1 (by decide)).1⟩

/-- Claim C3 (amended): when the weekly radio is offered, true-only (resp.
false-only) keeps exactly the records whose `weekly` value is Python-equal to
`True` (resp. `False`): the literal boolean, or a number equal to 1 (resp. 0).
Records with a missing, null or string value are in neither branch. -/
theorem C3_amended : ∀ (l : List Record) (b : Bool),
    (weeklyOffered true l = true →
      weeklyStage true (some b) l = l.filter (fun r => pyEqB (getCell r "weekly") b))
    ∧ (∀ r : Record, pyEqB (getCell r "weekly") b = true ↔
        (getCell r "weekly" = some (Value.boolV b)
         ∨ getCell r "weekly" = some (Value.intV (if b then 1 else 0))
         ∨ (∃ q : Dec, getCell r "weekly" = some (Value.floatV q)
              ∧ q.deq (Dec.ofInt (if b then 1 else 0)) = true))) := by
  intro l b
  constructor
  · intro h
    simp only [weeklyStage]
    rw [if_pos h]
  · intro r
    cases hc : getCell r "weekly" with
    | none => simp [pyEqB, hc]
    | some v =>
      cases v with
      | null => simp [pyEqB, hc]
      | str s => simp [pyEqB, hc]
      | intV n => simp [pyEqB, hc, beq_iff_eq]
      | floatV q => simp [pyEqB, hc]
      | boolV x => simp [pyEqB, hc, beq_iff_eq]

/-- Claim C3 (counterexample): a record whose `weekly` value is the number 1
appears in the true-only branch, and one whose value is the number 0 appears
in the false-only branch — numbers are not excluded from the boolean
partition as claimed. -/
theorem C3_counterexample :
    weeklyStage true (some true) [recWeeklyNum] = [recWeeklyNum]
    ∧ getCell recWeeklyNum "weekly" = some (Value.intV 1)
    ∧ weeklyStage true (some false) [[("weekly", Value.intV 0)]]
        = [[("weekly", Value.intV 0)]] := by
  decide

/-- Claim C3 (witness for the amended theorem). -/
theorem C3_amended_witness :
    weeklyStage true (some true) [recWeeklyBool]
      = List.filter (fun r => pyEqB (getCell r "weekly") true) [recWeeklyBool] :=
  (C3_amended [recWeeklyBool] true).1 (by decide)

/-- Claim C4 (amended): an empty search term keeps all records; a non-empty
term keeps exactly the records whose `trading_symbol` cell, rendered with
`astype(str)` — a missing cell rendering as `"nan"` and a null as `"None"` —
contains the term case-insensitively (the source interprets the term as a
regular expression; literal terms, modelled here, mean substring containment).
Records with a missing `trading_symbol` are therefore kept whenever the term
matches `"nan"`, not excluded. -/
theorem C4_amended :
    (∀ (hc : Bool) (l : List Record), searchStage hc "" l = l)
    ∧ (∀ (t : String) (l : List Record) (r : Record), t ≠ "" →
        (r ∈ searchStage true t l ↔
          r ∈ l ∧ strContainsCI (pyStrCell (getCell r "trading_symbol")) t = true))
    ∧ pyStrCell none = "nan" ∧ pyStrCell (some Value.null) = "None" := by
  refine ⟨searchStage_empty, ?_, rfl, rfl⟩
  intro t l r ht
  unfold searchStage
  rw [if_neg ht, if_pos rfl]
  exact List.mem_filter

/-- Claim C4 (counterexample): with the non-empty term `"an"`, the pipeline
keeps the record whose `trading_symbol` is missing (its `astype(str)`
rendering `"nan"` contains `"an"`) and drops the record whose symbol is
`"X"` — records with a missing symbol are not excluded as claimed. -/
theorem C4_counterexample :
    applyFilters selSearchAn dsSearch = [recNoSymbol]
    ∧ getCell recNoSymbol "trading_symbol" = none
    ∧ selSearchAn.search = "an" := by
  decide

/-- Claim C4 (witness for the amended theorem). -/
theorem C4_amended_witness : recSymbolX ∈ searchStage true "x" [recSymbolX] :=
  (C4_amended.2.1 "x" [recSymbolX] recSymbolX (by decide)).mpr (by decide)

/-- When the strike slider is offered and set to the exact observed
`[min, max]`, the filter keeps exactly the records whose field parses
numerically. -/
theorem strikeStage_fullRange (l : List Record) (h : strikeOffered true l = true) :
    strikeStage true (some (dMinOf (strikeVals l), dMaxOf (strikeVals l))) l
      = l.filter (fun r => (toNumericCell (getCell r "strike_price")).isSome) := by
  simp only [strikeStage]
  rw [if_pos h]
  apply List.filter_congr
  intro r hr
  cases hcell : toNumericCell (getCell r "strike_price") with
  | none => simp
  | some q =>
    have hq : q ∈ strikeVals l := List.mem_filterMap.mpr ⟨r, hr, hcell⟩
    have h1 := dMinOf_dle (strikeVals l) q hq
    have h2 := dle_dMaxOf (strikeVals l) q hq
    simp [h1, h2]

/-- Claim C9 (amended): for `strike_price`, the range filter at the exact
observed `[min, max]` keeps exactly the numerically parsing records, hence is
a no-op iff dropping non-numeric records is one.  For `lot_size` the offered
bounds are `int(...)`-truncated, and the full-offered-range filter is a no-op
iff every record parses numerically AND lies within the truncated bounds —
numeric values outside them (e.g. 75.5 against a truncated maximum of 75) are
additionally dropped. -/
theorem C9_amended : ∀ l : List Record,
    (strikeOffered true l = true →
      strikeStage true (some (dMinOf (strikeVals l), dMaxOf (strikeVals l))) l
        = l.filter (fun r => (toNumericCell (getCell r "strike_price")).isSome))
    ∧ ((∀ r ∈ l, (toNumericCell (getCell r "strike_price")).isSome = true) →
        strikeOffered true l = true →
        strikeStage true (some (dMinOf (strikeVals l), dMaxOf (strikeVals l))) l = l)
    ∧ (lotOffered true l = true →
        (lotStage true (some ((dMinOf (lotVals l)).trunc, (dMaxOf (lotVals l)).trunc)) l = l
          ↔ ∀ r ∈ l, ∃ q, toNumericCell (getCell r "lot_size") = some q
              ∧ ((Dec.ofInt ((dMinOf (lotVals l)).trunc)).dle q
                  && q.dle (Dec.ofInt ((dMaxOf (lotVals l)).trunc))) = true)) := by
  intro l
  refine ⟨strikeStage_fullRange l, ?_, ?_⟩
  · intro hall h
    rw [strikeStage_fullRange l h]
    exact List.filter_eq_self.mpr hall
  · intro h
    simp only [lotStage]
    rw [if_pos h, List.filter_eq_self]
    constructor
    · intro hp r hr
      have hpr := hp r hr
      cases hcell : toNumericCell (getCell r "lot_size") with
      | none => rw [hcell] at hpr; simp at hpr
      | some q =>
        rw [hcell] at hpr
        exact ⟨q, rfl, hpr⟩
    · intro hp r hr
      obtain ⟨q, hq, hb⟩ := hp r hr
      rw [hq]
      exact hb

/-- Claim C9 (counterexample): the dataset with lot sizes 50 and 75.5 has
observed bounds min 50, max 75.5, but the control offers the truncated range
`[50, 75]`; with the slider at that full offered range the filter drops the
75.5 record even though every record's `lot_size` parses numerically — the
full-offered-range filter is not a no-op modulo non-numeric exclusion. -/
theorem C9_counterexample :
    (dMinOf (lotVals dsLot)).trunc = 50
    ∧ (dMaxOf (lotVals dsLot)).trunc = 75
    ∧ lotOffered true dsLot = true
    ∧ dsLot.all (fun r => (toNumericCell (getCell r "lot_size")).isSome) = true
    ∧ lotStage true (some (50, 75)) dsLot = [[("lot_size", Value.intV 50)]]
    ∧ dsLot ≠ [[("lot_size", Value.intV 50)]] := by
  decide

/-- Claim C9 (witness for the amended theorem). -/
theorem C9_amended_witness :
    strikeStage true (some (dMinOf (strikeVals dsStrike), dMaxOf (strikeVals dsStrike)))
      dsStrike = dsStrike :=
  (C9_amended dsStrike).2.1 (by decide) (by decide)

/-- Claim C6: when the whole-input parse fails, `parse` returns exactly the
parses of the valid non-blank lines, in input order (as many records as there
are valid lines); when the whole input is a JSON array, `parse` returns
exactly its elements, same length and content, in order. -/
theorem C6_theorem : ∀ (jl : String → Option Json) (content : String),
    (jl content = none →
      load_json_file jl content = (nonBlankLines content).filterMap jl
      ∧ (load_json_file jl content).length
          = ((nonBlankLines content).filter (fun l => (jl l).isSome)).length)
    ∧ (∀ xs : List Json, jl content = some (Json.arr xs) →
        load_json_file jl content = xs
        ∧ (load_json_file jl content).length = xs.length) := by
  intro jl content
  constructor
  · intro h
    have he : load_json_file jl content = (nonBlankLines content).filterMap jl := by
      unfold load_json_file
      rw [h]
    exact ⟨he, by rw [he]; exact filterMap_length_eq _ _⟩
  · intro xs h
    have he : load_json_file jl content = xs := by
      unfold load_json_file
      rw [h]
    exact ⟨he, by rw [he]⟩

/-- Claim C6 (witness): the three-line input with one invalid middle line
yields the two valid records in order, and the array input yields its two
elements. -/
theorem C6_witness :
    load_json_file jloadsDemo contentLines = (nonBlankLines contentLines).filterMap jloadsDemo
    ∧ load_json_file jloadsDemo arrText = [objA, objB] :=
  ⟨((C6_theorem jloadsDemo contentLines).1 rfl).1,
   ((C6_theorem jloadsDemo arrText).2 [objA, objB] rfl).1⟩

/-- Claim C7: `parse` is a total function into datasets — an undecodable
input yields the empty dataset, and when the whole-input parse and every
non-blank line fail, the result is the empty dataset, for which the caller
surfaces its single diagnostic. -/
theorem C7_theorem : ∀ jl : String → Option Json,
    load_from_bytes jl none = []
    ∧ (∀ content : String, jl content = none →
        ((nonBlankLines content).all (fun l => (jl l).isNone)) = true →
        load_from_bytes jl (some content) = []
        ∧ noDataDiagnostic (load_from_bytes jl (some content)) = true) := by
  intro jl
  refine ⟨rfl, ?_⟩
  intro content h hall
  have hnil : load_json_file jl content = [] := by
    unfold load_json_file
    rw [h]
    refine List.filterMap_eq_nil_iff.mpr ?_
    intro a ha
    exact Option.isNone_iff_eq_none.mp (List.all_eq_true.mp hall a ha)
  refine ⟨hnil, ?_⟩
  show (load_json_file jl content).isEmpty = true
  rw [hnil]
  rfl

/-- Claim C7 (witness): junk content with no parsable line returns the empty
dataset, as does an undecodable input. -/
theorem C7_witness :
    load_from_bytes jloadsDemo (some contentJunk) = []
    ∧ load_from_bytes jloadsDemo none = [] :=
  ⟨((C7_theorem jloadsDemo).2 contentJunk rfl (by decide)).1, (C7_theorem jloadsDemo).1⟩

/-- Claim C8 (amended): the filtered result is always a sublist (ordered
subset) of the unfiltered dataset, so its length never exceeds the dataset's;
and adding an active search constraint to any selection narrows the result.
(Adding an arbitrary constraint does not narrow it in general — see the
counterexample — because the availability of later controls is recomputed
from the already-filtered data.) -/
theorem C8_amended :
    (∀ (sel : Selection) (ds : List Record), (applyFilters sel ds).Sublist ds)
    ∧ (∀ (sel : Selection) (ds : List Record), (applyFilters sel ds).length ≤ ds.length)
    ∧ (∀ (sel : Selection) (ds : List Record) (t : String), sel.search = "" →
        (applyFilters (withSearch sel t) ds).Sublist (applyFilters sel ds)) := by
  refine ⟨applyFilters_sublist, fun sel ds => (applyFilters_sublist sel ds).length_le, ?_⟩
  intro sel ds t h
  have e1 : applyFilters (withSearch sel t) ds
      = searchStage (hasColumn ds "trading_symbol") t
          (preSearch (fun k => hasColumn ds k) sel ds) := rfl
  have e2 : applyFilters sel ds = preSearch (fun k => hasColumn ds k) sel ds := by
    unfold applyFilters applyFiltersAux
    rw [h]
    exact searchStage_empty _ _
  rw [e1, e2]
  exact searchStage_sublist _ _ _

/-- Claim C8 (counterexample): adding the single constraint `exchange = NSE`
to a selection whose lot range is `[15, 20]` yields a result that is NOT a
subset of the less-constrained result: narrowing to NSE leaves only one
distinct lot value, the slider is no longer offered, its constraint silently
stops applying, and the NSE record the less-constrained selection had dropped
reappears. -/
theorem C8_counterexample :
    applyFilters selLotNSE dsMono = [recNSE10]
    ∧ applyFilters selLot dsMono = [recBSE20]
    ∧ recNSE10 ∈ applyFilters selLotNSE dsMono
    ∧ recNSE10 ∉ applyFilters selLot dsMono
    ∧ ¬ (applyFilters selLotNSE dsMono).Sublist (applyFilters selLot dsMono) := by
  refine ⟨by decide, by decide, by decide, by decide, ?_⟩
  intro hs
  have h1 : applyFilters selLotNSE dsMono = [recNSE10] := by decide
  have h2 : applyFilters selLot dsMono = [recBSE20] := by decide
  rw [h1, h2] at hs
  have hmem : recNSE10 ∈ [recBSE20] := hs.subset (by decide)
  exact absurd hmem (by decide)

/-- Claim C8 (witness for the amended theorem). -/
theorem C8_amended_witness :
    (applyFilters (withSearch selLot "zz") dsMono).Sublist (applyFilters selLot dsMono) :=
  C8_amended.2.2 selLot dsMono "zz" rfl

/-- Claim C10: the filtered result is a sublist of the parsed dataset (its
records are unmodified originals, relative order preserved), and both the CSV
export and the displayed table have exactly one row per filtered record, the
i-th row derived from the i-th record. -/
theorem C10_theorem : ∀ (sel : Selection) (ds : List Record) (i : ℕ),
    (applyFilters sel ds).Sublist ds
    ∧ (csvRows (columnsOf ds) (applyFilters sel ds))[i]?
        = Option.map (csvRowOf (columnsOf ds)) (applyFilters sel ds)[i]?
    ∧ (displayTable (columnsOf ds) (applyFilters sel ds))[i]?
        = Option.map (displayRowOf (columnsOf ds)) (applyFilters sel ds)[i]?
    ∧ (csvRows (columnsOf ds) (applyFilters sel ds)).length = (applyFilters sel ds).length
    ∧ (displayTable (columnsOf ds) (applyFilters sel ds)).length
        = (applyFilters sel ds).length := by
  intro sel ds i
  exact ⟨applyFilters_sublist sel ds, List.getElem?_map _ _ _, List.getElem?_map _ _ _,
    List.length_map _ _, List.length_map _ _⟩
